import Mathlib

/-!
Shallow embedding of the Raydium CLMM liquidity bot core
(src/bot/index.ts, src/bot/monitor.ts, src/bot/position-manager.ts,
src/services/raydium.ts, src/services/solana.ts, src/services/discord.ts).

Modelling conventions:
* JavaScript numbers (prices, percentages, SOL balances) are embedded as `Rat`;
  raw bigint token amounts as `Nat` (they are non-negative on chain, and bigint
  division truncates toward zero exactly as `Nat` division does on
  non-negative operands).
* The chain gateway (Solana RPC + Raydium SDK) is an oracle: the structure `GW`
  carries one response queue per remote call kind; each call consumes the head
  of its queue (an exhausted queue behaves as one more read failure).  This lets
  theorems quantify over every pattern of gateway successes and thrown errors.
* A rejected promise is an `Except.error`; `try/catch` blocks of the source are
  the visible `match`es on those `Except` results.
* Discord notifications never throw in the source (`DiscordService.sendNotification`
  catches internally), so they are embedded as pure appends to an event log.
* `RaydiumService.getCurrentPrice` computes the pool price from the cached
  `sqrtPriceX64` via `Decimal`; no claim concerns that conversion, so the cached
  pool info carries the resulting price directly as a `Rat` field.  Likewise the
  `DecimalUtils.fromBN` tick-price conversions in `getPositions` are abstracted:
  the oracle returns the positions with their band prices already as `Rat`.
-/

/-- Errors a gateway call can reject with: a read failure (RPC / pool fetch),
a transaction failure, or the synchronous throw of
`RaydiumService.getCurrentPrice` when no pool info is cached. -/
inductive Err where
  | gwRead (code : Nat)
  | txFail (code : Nat)
  | notInitialized
deriving DecidableEq, Repr

/-- Cached pool info (`RaydiumService.poolInfo` together with the
`tokenA`/`tokenB` fields set by `fetchPoolInfo`).  `price` is the current pool
price that `getCurrentPrice` computes from `sqrtPriceX64`. -/
structure PoolData where
  mintA : Nat
  mintB : Nat
  price : Rat
deriving DecidableEq, Repr

/-- One entry of the `solanaService.getTokenBalances()` map
(interface `TokenBalance` of src/services/solana.ts). -/
structure TokenBalance where
  mint : Nat
  amount : Nat
  decimals : Nat
  uiAmount : Rat
deriving DecidableEq, Repr

/-- A raw position as returned by `Clmm.getPositionsByOwner`, before
`RaydiumService.getPositions` decorates it with the current price and the
in-range flag. -/
structure RawPos where
  positionId : Nat
  lowerPrice : Rat
  upperPrice : Rat
deriving DecidableEq, Repr

/-- `PositionInfo` of src/services/raydium.ts (the fields the bot core reads). -/
structure PositionInfo where
  positionId : Nat
  lowerPrice : Rat
  upperPrice : Rat
  currentPrice : Rat
  inRange : Bool
deriving DecidableEq, Repr

/-- Result of `PoolMonitor.checkPrice`. -/
structure PriceSample where
  currentPrice : Rat
  significantChange : Bool
  percentChange : Option Rat
deriving DecidableEq, Repr

instance exceptDecEq {ε α : Type} [DecidableEq ε] [DecidableEq α] :
    DecidableEq (Except ε α) := fun x y =>
  match x, y with
  | Except.ok a, Except.ok b =>
      if h : a = b then Decidable.isTrue (by rw [h])
      else Decidable.isFalse (by intro hc; cases hc; exact h rfl)
  | Except.ok _, Except.error _ => Decidable.isFalse (by intro hc; cases hc)
  | Except.error _, Except.ok _ => Decidable.isFalse (by intro hc; cases hc)
  | Except.error a, Except.error b =>
      if h : a = b then Decidable.isTrue (by rw [h])
      else Decidable.isFalse (by intro hc; cases hc; exact h rfl)

/-- Observable side effects: Discord notifications (by their fixed titles) and
transactions submitted through the wallet.  `openPositionTx` records the band
and max amounts passed to `Clmm.makeOpenPositionInstructionV2` together with the
submission outcome; `closePositionTx` likewise for `makeClosePositionInstruction`.
`armTimer` records `cron.schedule` arming the recurring job in
`LiquidityBot.start`. -/
inductive Event where
  | notifyBotStarted
  | notifyBotStopped
  | notifyError
  | notifyLowBalance
  | notifyPositionCreated
  | notifyPositionWithdrawn
  | openPositionTx (lower upper : Rat) (maxA maxB : Nat) (result : Except Err String)
  | closePositionTx (positionId : Nat) (result : Except Err String)
  | armTimer
deriving DecidableEq, Repr

/-- The gateway oracle plus the `RaydiumService` pool-info cache and the event
log (most recent event first). -/
structure GW where
  poolData : Option PoolData
  fetchPoolInfoR : List (Except Err PoolData)
  getPositionsR : List (Except Err (List RawPos))
  tokenBalancesR : List (Except Err (List (Nat × TokenBalance)))
  solBalanceR : List (Except Err Rat)
  createPositionR : List (Except Err String)
  withdrawPositionR : List (Except Err String)
  log : List Event
deriving DecidableEq, Repr

/-- The configuration values the core reads (src/config/index.ts). -/
structure Config where
  priceRangePercent : Rat
  rebalanceThresholdPercent : Rat
  minSolBalance : Rat
deriving DecidableEq, Repr

/-- `LiquidityBot` instance state plus the `PoolMonitor` singleton state
(`lastCheckedPrice`). `timerArmed` stands for `cronJob !== null`. -/
structure BotState where
  isRunning : Bool
  timerArmed : Bool
  lastCheckedPrice : Option Rat
deriving DecidableEq, Repr

/-- Append a notification event to the log. -/
def GW.notify (gw : GW) (e : Event) : GW :=
  { gw with log := e :: gw.log }

/-- Pop the next `ClmmPoolUtils.fetchPoolInfo` response. -/
def GW.popFetchPool (gw : GW) : Except Err PoolData × GW :=
  match gw.fetchPoolInfoR with
  | [] => (Except.error (Err.gwRead 0), gw)
  | r :: rest => (r, { gw with fetchPoolInfoR := rest })

/-- Pop the next `Clmm.getPositionsByOwner` response. -/
def GW.popPositions (gw : GW) : Except Err (List RawPos) × GW :=
  match gw.getPositionsR with
  | [] => (Except.error (Err.gwRead 1), gw)
  | r :: rest => (r, { gw with getPositionsR := rest })

/-- Pop the next `solanaService.getTokenBalances` response. -/
def GW.popTokenBalances (gw : GW) : Except Err (List (Nat × TokenBalance)) × GW :=
  match gw.tokenBalancesR with
  | [] => (Except.error (Err.gwRead 2), gw)
  | r :: rest => (r, { gw with tokenBalancesR := rest })

/-- Pop the next `solanaService.getSolBalance` response. -/
def GW.popSolBalance (gw : GW) : Except Err Rat × GW :=
  match gw.solBalanceR with
  | [] => (Except.error (Err.gwRead 3), gw)
  | r :: rest => (r, { gw with solBalanceR := rest })

/-- Pop the next open-position `signAndSendTransaction` response. -/
def GW.popCreate (gw : GW) : Except Err String × GW :=
  match gw.createPositionR with
  | [] => (Except.error (Err.txFail 0), gw)
  | r :: rest => (r, { gw with createPositionR := rest })

/-- Pop the next close-position `signAndSendTransaction` response. -/
def GW.popWithdraw (gw : GW) : Except Err String × GW :=
  match gw.withdrawPositionR with
  | [] => (Except.error (Err.txFail 1), gw)
  | r :: rest => (r, { gw with withdrawPositionR := rest })

/-- JavaScript truthiness of a `string | null` value (`!!signature`):
`null` and the empty string are falsy. -/
def jsTruthy : Option String → Bool
  | none => false
  | some s => !(s = "")

/-- `Map.get` on the token-balances map, embedded as association-list lookup. -/
def lookupBal (bals : List (Nat × TokenBalance)) (mint : Nat) : Option TokenBalance :=
  (bals.find? (fun p => p.1 == mint)).map (fun p => p.2)

namespace RaydiumService

/-- `RaydiumService.fetchPoolInfo`: fetch through the gateway; on success cache
the pool data (and the token identities); on failure rethrow. -/
def fetchPoolInfo (gw : GW) : Except Err PoolData × GW :=
  match gw.popFetchPool with
  | (Except.ok pd, gw1) => (Except.ok pd, { gw1 with poolData := some pd })
  | (Except.error e, gw1) => (Except.error e, gw1)

/-- `RaydiumService.initialize`: `fetchPoolInfo`, rethrowing failures.
(Named `initRaydium` because the source name is a Lean keyword.) -/
def initRaydium (gw : GW) : Except Err Unit × GW :=
  match fetchPoolInfo gw with
  | (Except.ok _, gw1) => (Except.ok (), gw1)
  | (Except.error e, gw1) => (Except.error e, gw1)

/-- `RaydiumService.isPoolInitialized`: whether pool info is cached. -/
def isPoolInitialized (gw : GW) : Bool :=
  gw.poolData.isSome

/-- `RaydiumService.getCurrentPrice`: throws when no pool info is cached,
otherwise the price derived from the cached pool state.  (The hard-coded
symbols make the USDC/SOL inversion branch of the source unreachable.) -/
def getCurrentPrice (gw : GW) : Except Err Rat :=
  match gw.poolData with
  | none => Except.error Err.notInitialized
  | some pd => Except.ok pd.price

/-- `RaydiumService.calculatePriceRange`: symmetric band of
`priceRangePercent` percent around the current price. -/
def calculatePriceRange (cfg : Config) (currentPrice : Rat) : Rat × Rat :=
  let r := cfg.priceRangePercent / 100
  (currentPrice * (1 - r), currentPrice * (1 + r))

/-- `RaydiumService.getPositions`: ensure pool info, read the owner positions
through the gateway, keep only this pool (the oracle already answers for this
pool), and decorate each with the current price and the derived in-range flag. -/
def getPositions (gw : GW) : Except Err (List PositionInfo) × GW :=
  let ensure : Except Err Unit × GW :=
    match gw.poolData with
    | none =>
        match fetchPoolInfo gw with
        | (Except.ok _, gw1) => (Except.ok (), gw1)
        | (Except.error e, gw1) => (Except.error e, gw1)
    | some _ => (Except.ok (), gw)
  match ensure with
  | (Except.error e, gw1) => (Except.error e, gw1)
  | (Except.ok _, gw1) =>
    match gw1.popPositions with
    | (Except.error e, gw2) => (Except.error e, gw2)
    | (Except.ok raws, gw2) =>
      match getCurrentPrice gw2 with
      | Except.error e => (Except.error e, gw2)
      | Except.ok cp =>
        (Except.ok (raws.map (fun p =>
          { positionId := p.positionId
            lowerPrice := p.lowerPrice
            upperPrice := p.upperPrice
            currentPrice := cp
            inRange := decide (p.lowerPrice ≤ cp ∧ cp ≤ p.upperPrice) })), gw2)

/-- `RaydiumService.createPosition`: ensure pool info, compute the band from the
current price via `calculatePriceRange`, submit the open-position transaction,
notify on success; on any failure send an error notification and rethrow. -/
def createPosition (cfg : Config) (amountA amountB : Nat) (gw : GW) :
    Except Err String × GW :=
  let ensure : Except Err Unit × GW :=
    match gw.poolData with
    | none =>
        match fetchPoolInfo gw with
        | (Except.ok _, gw1) => (Except.ok (), gw1)
        | (Except.error e, gw1) => (Except.error e, gw1)
    | some _ => (Except.ok (), gw)
  match ensure with
  | (Except.error e, gw1) => (Except.error e, gw1.notify Event.notifyError)
  | (Except.ok _, gw1) =>
    match getCurrentPrice gw1 with
    | Except.error e => (Except.error e, gw1.notify Event.notifyError)
    | Except.ok cp =>
      let band := calculatePriceRange cfg cp
      match gw1.popCreate with
      | (Except.ok sig, gw2) =>
        let gw3 := gw2.notify (Event.openPositionTx band.1 band.2 amountA amountB (Except.ok sig))
        (Except.ok sig, gw3.notify Event.notifyPositionCreated)
      | (Except.error e, gw2) =>
        let gw3 := gw2.notify (Event.openPositionTx band.1 band.2 amountA amountB (Except.error e))
        (Except.error e, gw3.notify Event.notifyError)

/-- `RaydiumService.withdrawPosition`: ensure pool info, submit the
close-position transaction, notify on success; on any failure send an error
notification and rethrow. -/
def withdrawPosition (positionId : Nat) (gw : GW) : Except Err String × GW :=
  let ensure : Except Err Unit × GW :=
    match gw.poolData with
    | none =>
        match fetchPoolInfo gw with
        | (Except.ok _, gw1) => (Except.ok (), gw1)
        | (Except.error e, gw1) => (Except.error e, gw1)
    | some _ => (Except.ok (), gw)
  match ensure with
  | (Except.error e, gw1) => (Except.error e, gw1.notify Event.notifyError)
  | (Except.ok _, gw1) =>
    match gw1.popWithdraw with
    | (Except.ok sig, gw2) =>
      let gw3 := gw2.notify (Event.closePositionTx positionId (Except.ok sig))
      (Except.ok sig, gw3.notify Event.notifyPositionWithdrawn)
    | (Except.error e, gw2) =>
      let gw3 := gw2.notify (Event.closePositionTx positionId (Except.error e))
      (Except.error e, gw3.notify Event.notifyError)

end RaydiumService

namespace PoolMonitor

/-- The `priceChangeThreshold` set in the `PoolMonitor` constructor. -/
def threshold (cfg : Config) : Rat := cfg.rebalanceThresholdPercent / 100

/-- `PoolMonitor.checkPrice`: ensure pool info, read the current price, compare
with the stored `lastCheckedPrice`, then store the new price.  Returns the new
monitor state alongside; any failure is logged and rethrown (the catch block of
the source rethrows), before `lastCheckedPrice` is assigned. -/
def checkPrice (cfg : Config) (last : Option Rat) (gw : GW) :
    Except Err PriceSample × Option Rat × GW :=
  let ensure : Except Err Unit × GW :=
    if RaydiumService.isPoolInitialized gw then (Except.ok (), gw)
    else RaydiumService.initRaydium gw
  match ensure with
  | (Except.error e, gw1) => (Except.error e, last, gw1)
  | (Except.ok _, gw1) =>
    match RaydiumService.getCurrentPrice gw1 with
    | Except.error e => (Except.error e, last, gw1)
    | Except.ok cp =>
      match last with
      | none => (Except.ok ⟨cp, false, none⟩, some cp, gw1)
      | some prev =>
        let pc := |cp - prev| / prev
        (Except.ok ⟨cp, decide (pc > threshold cfg), some pc⟩, some cp, gw1)

/-- `PoolMonitor.checkPositions`: counts of all and of out-of-range positions;
read failures rethrown. -/
def checkPositions (gw : GW) : Except Err (Nat × Nat) × GW :=
  match RaydiumService.getPositions gw with
  | (Except.error e, gw1) => (Except.error e, gw1)
  | (Except.ok ps, gw1) =>
      (Except.ok (ps.length, (ps.filter (fun p => !p.inRange)).length), gw1)

/-- `PoolMonitor.checkWalletBalances`: SOL balance and token balances; sends a
low-balance notification when the SOL balance is below the configured minimum;
read failures rethrown.  (The cosmetic symbol formatting of the source is
dropped: no claim consumes it.) -/
def checkWalletBalances (cfg : Config) (gw : GW) :
    Except Err (Rat × List (Nat × TokenBalance)) × GW :=
  match gw.popSolBalance with
  | (Except.error e, gw1) => (Except.error e, gw1)
  | (Except.ok sol, gw1) =>
    match gw1.popTokenBalances with
    | (Except.error e, gw2) => (Except.error e, gw2)
    | (Except.ok bals, gw2) =>
      if sol < cfg.minSolBalance then
        (Except.ok (sol, bals), gw2.notify Event.notifyLowBalance)
      else (Except.ok (sol, bals), gw2)

end PoolMonitor

namespace PositionManager

/-- The `for (const position of outOfRangePositions)` loop of
`withdrawOutOfRangePositions`: withdraw sequentially, accumulating signatures;
the first rejection aborts the loop (propagating into the enclosing catch). -/
def withdrawLoop (ps : List PositionInfo) (acc : List String) (gw : GW) :
    Except Err (List String) × GW :=
  match ps with
  | [] => (Except.ok acc, gw)
  | p :: rest =>
    match RaydiumService.withdrawPosition p.positionId gw with
    | (Except.ok sig, gw1) => withdrawLoop rest (acc ++ [sig]) gw1
    | (Except.error e, gw1) => (Except.error e, gw1)

/-- `PositionManager.withdrawOutOfRangePositions`: read positions, withdraw the
out-of-range ones sequentially; the catch block converts ANY failure (of the
read or of any single withdrawal) into an error notification and an EMPTY
result list. -/
def withdrawOutOfRangePositions (gw : GW) : Except Err (List String) × GW :=
  match RaydiumService.getPositions gw with
  | (Except.error _, gw1) => (Except.ok [], gw1.notify Event.notifyError)
  | (Except.ok positions, gw1) =>
    let oor := positions.filter (fun p => !p.inRange)
    if oor.length = 0 then (Except.ok [], gw1)
    else
      match withdrawLoop oor [] gw1 with
      | (Except.ok sigs, gw2) => (Except.ok sigs, gw2)
      | (Except.error _, gw2) => (Except.ok [], gw2.notify Event.notifyError)

/-- `PositionManager.createOptimalPosition`: ensure pool info, read balances and
positions; return `none` when positions already exist, when a pool-token
balance is missing, or when either balance is below the fixed 1000 raw-unit
floor; otherwise submit one open-position transaction sized at 95% of each
balance (truncating integer division).  The catch block converts any thrown
error into an error notification and a `none` result. -/
def createOptimalPosition (cfg : Config) (gw : GW) : Except Err (Option String) × GW :=
  let ensure : Except Err Unit × GW :=
    if RaydiumService.isPoolInitialized gw then (Except.ok (), gw)
    else RaydiumService.initRaydium gw
  match ensure with
  | (Except.error _, gw1) => (Except.ok none, gw1.notify Event.notifyError)
  | (Except.ok _, gw1) =>
    match gw1.popTokenBalances with
    | (Except.error _, gw2) => (Except.ok none, gw2.notify Event.notifyError)
    | (Except.ok bals, gw2) =>
      match RaydiumService.getPositions gw2 with
      | (Except.error _, gw3) => (Except.ok none, gw3.notify Event.notifyError)
      | (Except.ok positions, gw3) =>
        if positions.length > 0 then (Except.ok none, gw3)
        else
          match RaydiumService.fetchPoolInfo gw3 with
          | (Except.error _, gw4) => (Except.ok none, gw4.notify Event.notifyError)
          | (Except.ok pd, gw4) =>
            match lookupBal bals pd.mintA, lookupBal bals pd.mintB with
            | none, _ => (Except.ok none, gw4)
            | some _, none => (Except.ok none, gw4)
            | some balA, some balB =>
              if balA.amount < 1000 ∨ balB.amount < 1000 then
                (Except.ok none, gw4)
              else
                let amountA := balA.amount * 95 / 100
                let amountB := balB.amount * 95 / 100
                match RaydiumService.createPosition cfg amountA amountB gw4 with
                | (Except.ok sig, gw5) => (Except.ok (some sig), gw5)
                | (Except.error _, gw5) => (Except.ok none, gw5.notify Event.notifyError)

/-- `PositionManager.rebalanceIfNeeded`: create directly when no positions
exist; otherwise withdraw the out-of-range ones and, when at least one
withdrawal signature was collected, wait the 5 s settle delay (no observable
effect in this model) and attempt a create.  `!!signature` is JavaScript
truthiness; the catch block converts any thrown error into an error
notification and a `false` result. -/
def rebalanceIfNeeded (cfg : Config) (gw : GW) : Except Err Bool × GW :=
  match RaydiumService.getPositions gw with
  | (Except.error _, gw1) => (Except.ok false, gw1.notify Event.notifyError)
  | (Except.ok positions, gw1) =>
    if positions.length = 0 then
      match createOptimalPosition cfg gw1 with
      | (Except.ok osig, gw2) => (Except.ok (jsTruthy osig), gw2)
      | (Except.error _, gw2) => (Except.ok false, gw2.notify Event.notifyError)
    else
      if (positions.filter (fun p => !p.inRange)).length > 0 then
        match withdrawOutOfRangePositions gw1 with
        | (Except.error _, gw2) => (Except.ok false, gw2.notify Event.notifyError)
        | (Except.ok sigs, gw2) =>
          if sigs.length > 0 then
            match createOptimalPosition cfg gw2 with
            | (Except.ok osig, gw3) => (Except.ok (jsTruthy osig), gw3)
            | (Except.error _, gw3) => (Except.ok false, gw3.notify Event.notifyError)
          else (Except.ok false, gw2)
      else (Except.ok false, gw1)

end PositionManager

namespace LiquidityBot

/-- The decision step of `LiquidityBot.runIteration` (the three `if`s that set
`shouldRebalance`). -/
def shouldRebalance (significantChange : Bool) (outOfRangeCount positionsCount : Nat) : Bool :=
  let s0 := false
  let s1 := if significantChange then true else s0
  let s2 := if outOfRangeCount > 0 then true else s1
  if positionsCount = 0 then true else s2

/-- `LiquidityBot.initialize`: initialize the Raydium service, then send the
"Bot Started" notification; the catch block sends an error notification and
rethrows.  (Named `initBot` because the source name is a Lean keyword.) -/
def initBot (gw : GW) : Except Err Unit × GW :=
  match RaydiumService.initRaydium gw with
  | (Except.error e, gw1) => (Except.error e, gw1.notify Event.notifyError)
  | (Except.ok _, gw1) => (Except.ok (), gw1.notify Event.notifyBotStarted)

/-- `LiquidityBot.runIteration`: check price, positions and balances, decide,
and rebalance when needed; one catch block around all five steps converts any
thrown error into an error notification (the iteration never rejects). -/
def runIteration (cfg : Config) (b : BotState) (gw : GW) :
    Except Err Unit × BotState × GW :=
  match PoolMonitor.checkPrice cfg b.lastCheckedPrice gw with
  | (Except.error _, last1, gw1) =>
      (Except.ok (), { b with lastCheckedPrice := last1 }, gw1.notify Event.notifyError)
  | (Except.ok priceInfo, last1, gw1) =>
    let b1 := { b with lastCheckedPrice := last1 }
    match PoolMonitor.checkPositions gw1 with
    | (Except.error _, gw2) => (Except.ok (), b1, gw2.notify Event.notifyError)
    | (Except.ok counts, gw2) =>
      match PoolMonitor.checkWalletBalances cfg gw2 with
      | (Except.error _, gw3) => (Except.ok (), b1, gw3.notify Event.notifyError)
      | (Except.ok _, gw3) =>
        if shouldRebalance priceInfo.significantChange counts.2 counts.1 then
          match PositionManager.rebalanceIfNeeded cfg gw3 with
          | (Except.ok _, gw4) => (Except.ok (), b1, gw4)
          | (Except.error _, gw4) => (Except.ok (), b1, gw4.notify Event.notifyError)
        else (Except.ok (), b1, gw3)

/-- `LiquidityBot.start`: warn-and-return when already running; otherwise
initialize, arm the cron timer, mark running, and run one iteration
synchronously.  The catch block around all of it sends an error notification
and swallows the error (`start` itself never rejects). -/
def start (cfg : Config) (b : BotState) (gw : GW) :
    Except Err Unit × BotState × GW :=
  if b.isRunning then (Except.ok (), b, gw)
  else
    match initBot gw with
    | (Except.error _, gw1) => (Except.ok (), b, gw1.notify Event.notifyError)
    | (Except.ok _, gw1) =>
      let gw2 := gw1.notify Event.armTimer
      let b1 := { b with isRunning := true, timerArmed := true }
      match runIteration cfg b1 gw2 with
      | (Except.ok _, b2, gw3) => (Except.ok (), b2, gw3)
      | (Except.error _, b2, gw3) => (Except.ok (), b2, gw3.notify Event.notifyError)

/-- `LiquidityBot.stop`: warn-and-return when not running (or no cron job);
otherwise disarm the timer, mark stopped, and send the "Bot Stopped"
notification.  Nothing inside can reject. -/
def stop (b : BotState) (gw : GW) : Except Err Unit × BotState × GW :=
  if !b.isRunning || !b.timerArmed then (Except.ok (), b, gw)
  else
    (Except.ok (), { b with isRunning := false, timerArmed := false },
      gw.notify Event.notifyBotStopped)

/-- `LiquidityBot.isActive`. -/
def isActive (b : BotState) : Bool := b.isRunning

end LiquidityBot

/-- Tick-dispatch state of the running control loop: how many `runIteration`
calls have been started by cron ticks and not yet finished. -/
structure LoopSched where
  inFlight : Nat
deriving DecidableEq, Repr

/-- The cron callback installed by `LiquidityBot.start`
(`cron.schedule(cronSchedule, async () => { await this.runIteration() ... })`):
it begins a new iteration unconditionally — the source tests no busy flag or
other single-flight guard before calling `runIteration`. -/
def cronTick (s : LoopSched) : LoopSched :=
  { inFlight := s.inFlight + 1 }

/-- An iteration finishing (the `runIteration` promise resolving). -/
def iterationDone (s : LoopSched) : LoopSched :=
  { inFlight := s.inFlight - 1 }

/-- Pure specification of the sequential-abort withdrawal loop over the queued
close-position responses: processes up to `n` responses, stopping at the first
failure; also returns how many responses were consumed. -/
def loopSpec : Nat → List (Except Err String) → Except Err (List String) × Nat
  | 0, _ => (Except.ok [], 0)
  | _ + 1, [] => (Except.error (Err.txFail 1), 0)
  | _ + 1, Except.error e :: _ => (Except.error e, 1)
  | n + 1, Except.ok s :: rs =>
      match loopSpec n rs with
      | (Except.ok sigs, k) => (Except.ok (s :: sigs), k + 1)
      | (Except.error e, k) => (Except.error e, k + 1)

/-- Count of the events satisfying `p` in a log. -/
def evCount (p : Event → Bool) (l : List Event) : Nat :=
  (l.filter p).length

/-- Whether an event is the "Bot Started" notification. -/
def isBotStarted : Event → Bool
  | Event.notifyBotStarted => true
  | _ => false

/-- Whether an event is the "Bot Stopped" notification. -/
def isBotStopped : Event → Bool
  | Event.notifyBotStopped => true
  | _ => false

/-- Whether an event arms the recurring timer. -/
def isArmTimer : Event → Bool
  | Event.armTimer => true
  | _ => false

/-- Whether an event is a successfully submitted open-position transaction
whose signature is truthy. -/
def isOpenOk : Event → Bool
  | Event.openPositionTx _ _ _ _ (Except.ok s) => !(s = "")
  | _ => false

/-- Whether an event is an open-position transaction submission (any outcome). -/
def isOpenTx : Event → Bool
  | Event.openPositionTx _ _ _ _ _ => true
  | _ => false

/-- A queued open-position response is acceptable when, if it succeeds, its
signature string is truthy (non-empty) — true of every real Solana signature. -/
def sigOkTruthy : Except Err String → Bool
  | Except.ok s => !(s = "")
  | Except.error _ => true

/-- Every queued open-position response that succeeds carries a truthy
(non-empty) signature string. -/
def GW.goodSigs (gw : GW) : Prop :=
  ∀ r ∈ gw.createPositionR, sigOkTruthy r = true

instance (gw : GW) : Decidable gw.goodSigs := by
  unfold GW.goodSigs; infer_instance

/-! ### Counting events, and frame lemmas for the leaf gateway operations -/

theorem evCount_cons (p : Event → Bool) (e : Event) (l : List Event) :
    evCount p (e :: l) = (if p e then 1 else 0) + evCount p l := by
  simp only [evCount, List.filter_cons]
  split <;> simp [Nat.add_comm]

theorem evCount_notify (p : Event → Bool) (gw : GW) (e : Event) (hp : p e = false) :
    evCount p (gw.notify e).log = evCount p gw.log := by
  simp [GW.notify, evCount_cons, hp]

theorem fetchPoolInfo_frame (gw : GW) :
    (RaydiumService.fetchPoolInfo gw).2.log = gw.log ∧
    (RaydiumService.fetchPoolInfo gw).2.createPositionR = gw.createPositionR ∧
    (RaydiumService.fetchPoolInfo gw).2.getPositionsR = gw.getPositionsR ∧
    (RaydiumService.fetchPoolInfo gw).2.withdrawPositionR = gw.withdrawPositionR := by
  unfold RaydiumService.fetchPoolInfo GW.popFetchPool
  rcases gw with ⟨pd, fq, posq, tq, sq, cq, wq, lg⟩
  rcases fq with _ | ⟨_ | fp, fr⟩ <;> simp

theorem initRaydium_frame (gw : GW) :
    (RaydiumService.initRaydium gw).2.log = gw.log ∧
    (RaydiumService.initRaydium gw).2.createPositionR = gw.createPositionR ∧
    (RaydiumService.initRaydium gw).2.getPositionsR = gw.getPositionsR ∧
    (RaydiumService.initRaydium gw).2.withdrawPositionR = gw.withdrawPositionR := by
  unfold RaydiumService.initRaydium RaydiumService.fetchPoolInfo GW.popFetchPool
  rcases gw with ⟨pd, fq, posq, tq, sq, cq, wq, lg⟩
  rcases fq with _ | ⟨_ | fp, fr⟩ <;> simp

theorem getPositions_frame (gw : GW) :
    (RaydiumService.getPositions gw).2.log = gw.log ∧
    (RaydiumService.getPositions gw).2.createPositionR = gw.createPositionR ∧
    (RaydiumService.getPositions gw).2.withdrawPositionR = gw.withdrawPositionR ∧
    (RaydiumService.getPositions gw).2.tokenBalancesR = gw.tokenBalancesR := by
  unfold RaydiumService.getPositions RaydiumService.fetchPoolInfo
    RaydiumService.getCurrentPrice GW.popFetchPool GW.popPositions
  rcases gw with ⟨pd, fq, posq, tq, sq, cq, wq, lg⟩
  rcases pd with _ | pd <;> rcases fq with _ | ⟨_ | fp, fr⟩ <;>
    rcases posq with _ | ⟨_ | ps, pr⟩ <;> simp

theorem checkPrice_frame (cfg : Config) (last : Option Rat) (gw : GW) :
    (PoolMonitor.checkPrice cfg last gw).2.2.log = gw.log ∧
    (PoolMonitor.checkPrice cfg last gw).2.2.createPositionR = gw.createPositionR ∧
    (PoolMonitor.checkPrice cfg last gw).2.2.withdrawPositionR = gw.withdrawPositionR ∧
    (PoolMonitor.checkPrice cfg last gw).2.2.getPositionsR = gw.getPositionsR := by
  unfold PoolMonitor.checkPrice RaydiumService.isPoolInitialized
    RaydiumService.initRaydium RaydiumService.fetchPoolInfo
    RaydiumService.getCurrentPrice GW.popFetchPool
  rcases gw with ⟨pd, fq, posq, tq, sq, cq, wq, lg⟩
  rcases pd with _ | pd <;> rcases fq with _ | ⟨_ | fp, fr⟩ <;>
    rcases last with _ | prev <;> simp

theorem checkPositions_frame (gw : GW) :
    (PoolMonitor.checkPositions gw).2.log = gw.log ∧
    (PoolMonitor.checkPositions gw).2.createPositionR = gw.createPositionR ∧
    (PoolMonitor.checkPositions gw).2.withdrawPositionR = gw.withdrawPositionR := by
  unfold PoolMonitor.checkPositions
  rcases h : RaydiumService.getPositions gw with ⟨r, gw1⟩
  have hf := getPositions_frame gw
  rw [h] at hf
  cases r <;> simp_all

theorem checkWalletBalances_count (cfg : Config) (gw : GW) (p : Event → Bool)
    (hp : p Event.notifyLowBalance = false) :
    evCount p (PoolMonitor.checkWalletBalances cfg gw).2.log = evCount p gw.log ∧
    (PoolMonitor.checkWalletBalances cfg gw).2.createPositionR = gw.createPositionR ∧
    (PoolMonitor.checkWalletBalances cfg gw).2.withdrawPositionR = gw.withdrawPositionR ∧
    (PoolMonitor.checkWalletBalances cfg gw).2.getPositionsR = gw.getPositionsR := by
  unfold PoolMonitor.checkWalletBalances GW.popSolBalance GW.popTokenBalances GW.notify
  rcases gw with ⟨pd, fq, posq, tq, sq, cq, wq, lg⟩
  rcases sq with _ | ⟨_ | sol, sr⟩ <;> rcases tq with _ | ⟨_ | bal, tr⟩ <;>
    (simp [evCount_cons, hp]; try (split <;> simp [evCount_cons, hp]))

/-! ### Frame/counting lemmas for the transaction-submitting operations -/

theorem withdrawPosition_count (pid : Nat) (gw : GW) (p : Event → Bool)
    (hpc : ∀ i r, p (Event.closePositionTx i r) = false)
    (hpw : p Event.notifyPositionWithdrawn = false)
    (hpe : p Event.notifyError = false) :
    evCount p (RaydiumService.withdrawPosition pid gw).2.log = evCount p gw.log ∧
    (RaydiumService.withdrawPosition pid gw).2.createPositionR = gw.createPositionR ∧
    (RaydiumService.withdrawPosition pid gw).2.getPositionsR = gw.getPositionsR := by
  unfold RaydiumService.withdrawPosition RaydiumService.fetchPoolInfo
    GW.popFetchPool GW.popWithdraw GW.notify
  rcases gw with ⟨pd, fq, posq, tq, sq, cq, wq, lg⟩
  rcases pd with _ | pd <;> rcases fq with _ | ⟨_ | fp, fr⟩ <;>
    rcases wq with _ | ⟨_ | ws, wr⟩ <;> simp [evCount_cons, hpc, hpw, hpe]

theorem withdrawLoop_count (ps : List PositionInfo) (acc : List String) (gw : GW)
    (p : Event → Bool)
    (hpc : ∀ i r, p (Event.closePositionTx i r) = false)
    (hpw : p Event.notifyPositionWithdrawn = false)
    (hpe : p Event.notifyError = false) :
    evCount p (PositionManager.withdrawLoop ps acc gw).2.log = evCount p gw.log ∧
    (PositionManager.withdrawLoop ps acc gw).2.createPositionR = gw.createPositionR := by
  induction ps generalizing acc gw with
  | nil => simp [PositionManager.withdrawLoop]
  | cons q rest ih =>
    unfold PositionManager.withdrawLoop
    rcases h : RaydiumService.withdrawPosition q.positionId gw with ⟨r, gw1⟩
    have hw := withdrawPosition_count q.positionId gw p hpc hpw hpe
    rw [h] at hw
    cases r with
    | ok sig =>
      have := ih (acc ++ [sig]) gw1
      simp_all
    | error e => simp_all

theorem withdrawOOR_count (gw : GW) (p : Event → Bool)
    (hpc : ∀ i r, p (Event.closePositionTx i r) = false)
    (hpw : p Event.notifyPositionWithdrawn = false)
    (hpe : p Event.notifyError = false) :
    evCount p (PositionManager.withdrawOutOfRangePositions gw).2.log = evCount p gw.log ∧
    (PositionManager.withdrawOutOfRangePositions gw).2.createPositionR = gw.createPositionR := by
  unfold PositionManager.withdrawOutOfRangePositions
  rcases h : RaydiumService.getPositions gw with ⟨r, gw1⟩
  have hf := getPositions_frame gw
  rw [h] at hf
  cases r with
  | error e => simp_all [GW.notify, evCount_cons, hpe]
  | ok positions =>
    rcases hf with ⟨hfl, hfc, _⟩
    rcases hwl : PositionManager.withdrawLoop
      (positions.filter (fun q => !q.inRange)) [] gw1 with ⟨rl, gw2⟩
    have hw := withdrawLoop_count (positions.filter (fun q => !q.inRange)) [] gw1 p hpc hpw hpe
    rw [hwl] at hw
    simp only []
    split
    · simp_all
    · rw [hwl]
      cases rl <;> simp_all [GW.notify, evCount_cons, hpe]

theorem createPosition_count (cfg : Config) (a b : Nat) (gw : GW) (p : Event → Bool)
    (hpo : ∀ lo hi x y r, p (Event.openPositionTx lo hi x y r) = false)
    (hppc : p Event.notifyPositionCreated = false)
    (hpe : p Event.notifyError = false) :
    evCount p (RaydiumService.createPosition cfg a b gw).2.log = evCount p gw.log := by
  unfold RaydiumService.createPosition RaydiumService.fetchPoolInfo
    RaydiumService.getCurrentPrice GW.popFetchPool GW.popCreate GW.notify
  rcases gw with ⟨pd, fq, posq, tq, sq, cq, wq, lg⟩
  rcases pd with _ | pd <;> rcases fq with _ | ⟨_ | fp, fr⟩ <;>
    rcases cq with _ | ⟨_ | cs, cr⟩ <;> simp [evCount_cons, hpo, hppc, hpe]

/-- `createPosition` under truthy queued signatures: the successful-open event
count rises by exactly one when the call succeeds and is unchanged when it
fails, and a success returns a truthy signature. -/
theorem createPosition_openOk (cfg : Config) (a b : Nat) (gw : GW)
    (hg : gw.goodSigs) :
    (∀ sig gw', RaydiumService.createPosition cfg a b gw = (Except.ok sig, gw') →
      (!(sig = "")) = true ∧
      evCount isOpenOk gw'.log = evCount isOpenOk gw.log + 1) ∧
    (∀ e gw', RaydiumService.createPosition cfg a b gw = (Except.error e, gw') →
      evCount isOpenOk gw'.log = evCount isOpenOk gw.log) := by
  unfold RaydiumService.createPosition RaydiumService.fetchPoolInfo
    RaydiumService.getCurrentPrice GW.popFetchPool GW.popCreate GW.notify
  unfold GW.goodSigs at hg
  rcases gw with ⟨pd, fq, posq, tq, sq, cq, wq, lg⟩
  simp only at hg
  rcases pd with _ | pd <;> rcases fq with _ | ⟨_ | fp, fr⟩ <;>
    rcases cq with _ | ⟨_ | cs, cr⟩ <;>
    simp_all [evCount_cons, isOpenOk, sigOkTruthy, Nat.add_comm]

/-! ### Compositional lemmas for the lifecycle orchestrators -/

theorem popTokenBalances_frame (gw : GW) :
    (gw.popTokenBalances).2.log = gw.log ∧
    (gw.popTokenBalances).2.createPositionR = gw.createPositionR ∧
    (gw.popTokenBalances).2.getPositionsR = gw.getPositionsR := by
  unfold GW.popTokenBalances
  rcases gw with ⟨pd, fq, posq, tq, sq, cq, wq, lg⟩
  rcases tq with _ | ⟨t, tr⟩ <;> simp

theorem goodSigs_of_eq {gw gw' : GW}
    (h : gw'.createPositionR = gw.createPositionR) (hg : gw.goodSigs) :
    gw'.goodSigs := by
  unfold GW.goodSigs at hg ⊢
  rw [h]
  exact hg

/-- `createOptimalPosition` never rejects, and under truthy queued signatures
its result is truthy exactly when it logged one more successfully submitted
open-position transaction. -/
theorem createOptimalPosition_openOk (cfg : Config) (gw : GW) (hg : gw.goodSigs) :
    ∃ osig gw', PositionManager.createOptimalPosition cfg gw = (Except.ok osig, gw') ∧
      evCount isOpenOk gw'.log =
        evCount isOpenOk gw.log + (if jsTruthy osig then 1 else 0) := by
  unfold PositionManager.createOptimalPosition
  rcases hens : (if RaydiumService.isPoolInitialized gw then (Except.ok (), gw)
      else RaydiumService.initRaydium gw) with ⟨re, gw1⟩
  have hfr1 : gw1.log = gw.log ∧ gw1.createPositionR = gw.createPositionR := by
    by_cases hini : RaydiumService.isPoolInitialized gw
    · simp [hini] at hens
      obtain ⟨he, hgw⟩ := hens
      subst hgw
      exact ⟨rfl, rfl⟩
    · simp [hini] at hens
      have := initRaydium_frame gw
      rw [hens] at this
      exact ⟨this.1, this.2.1⟩
  rcases hfr1 with ⟨hl1, hc1⟩
  cases re with
  | error e =>
    dsimp only
    refine ⟨none, _, rfl, ?_⟩
    simp [jsTruthy, GW.notify, evCount_cons, hl1, isOpenOk]
  | ok u =>
    dsimp only
    rcases htb : gw1.popTokenBalances with ⟨rtb, gw2⟩
    have hfr2 := popTokenBalances_frame gw1
    rw [htb] at hfr2
    have hl2 : gw2.log = gw1.log := by simpa using hfr2.1
    have hc2 : gw2.createPositionR = gw1.createPositionR := by simpa using hfr2.2.1
    cases rtb with
    | error e =>
      dsimp only
      refine ⟨none, _, rfl, ?_⟩
      simp [jsTruthy, GW.notify, evCount_cons, hl1, hl2, isOpenOk]
    | ok bals =>
      dsimp only
      rcases hgp : RaydiumService.getPositions gw2 with ⟨rp, gw3⟩
      have hfr3 := getPositions_frame gw2
      rw [hgp] at hfr3
      have hl3 : gw3.log = gw2.log := by simpa using hfr3.1
      have hc3 : gw3.createPositionR = gw2.createPositionR := by simpa using hfr3.2.1
      cases rp with
      | error e =>
        dsimp only
        refine ⟨none, _, rfl, ?_⟩
        simp [jsTruthy, GW.notify, evCount_cons, hl1, hl2, hl3, isOpenOk]
      | ok positions =>
        dsimp only
        by_cases hlen : positions.length > 0
        · rw [if_pos hlen]
          refine ⟨none, gw3, rfl, ?_⟩
          simp [jsTruthy, hl1, hl2, hl3]
        · rw [if_neg hlen]
          rcases hfp : RaydiumService.fetchPoolInfo gw3 with ⟨rf, gw4⟩
          have hfr4 := fetchPoolInfo_frame gw3
          rw [hfp] at hfr4
          have hl4 : gw4.log = gw3.log := by simpa using hfr4.1
          have hc4 : gw4.createPositionR = gw3.createPositionR := by simpa using hfr4.2.1
          cases rf with
          | error e =>
            dsimp only
            refine ⟨none, _, rfl, ?_⟩
            simp [jsTruthy, GW.notify, evCount_cons, hl1, hl2, hl3, hl4, isOpenOk]
          | ok pd =>
            dsimp only
            rcases hba : lookupBal bals pd.mintA with _ | balA
            · refine ⟨none, gw4, rfl, ?_⟩
              simp [jsTruthy, hl1, hl2, hl3, hl4]
            · rcases hbb : lookupBal bals pd.mintB with _ | balB
              · refine ⟨none, gw4, rfl, ?_⟩
                simp [jsTruthy, hl1, hl2, hl3, hl4]
              · dsimp only
                by_cases hmin : balA.amount < 1000 ∨ balB.amount < 1000
                · rw [if_pos hmin]
                  refine ⟨none, gw4, rfl, ?_⟩
                  simp [jsTruthy, hl1, hl2, hl3, hl4]
                · rw [if_neg hmin]
                  have hg4 : gw4.goodSigs :=
                    goodSigs_of_eq (by rw [hc4, hc3, hc2, hc1]) hg
                  rcases hcp : RaydiumService.createPosition cfg
                      (balA.amount * 95 / 100) (balB.amount * 95 / 100) gw4 with ⟨rc, gw5⟩
                  have hco := createPosition_openOk cfg
                    (balA.amount * 95 / 100) (balB.amount * 95 / 100) gw4 hg4
                  cases rc with
                  | ok sig =>
                    rcases hco.1 sig gw5 hcp with ⟨hsig, hcount⟩
                    refine ⟨some sig, gw5, rfl, ?_⟩
                    simp [jsTruthy, hsig, hcount, hl1, hl2, hl3, hl4]
                  | error e =>
                    have hcount := hco.2 e gw5 hcp
                    refine ⟨none, _, rfl, ?_⟩
                    simp [jsTruthy, GW.notify, evCount_cons, hcount, hl1, hl2, hl3, hl4, isOpenOk]
/-- `rebalanceIfNeeded` never rejects and, under truthy queued signatures, its
boolean result is `true` exactly when one more successfully submitted
open-position transaction was logged during the call. -/
theorem rebalanceIfNeeded_openOk (cfg : Config) (gw : GW) (hg : gw.goodSigs) :
    ∃ b gw', PositionManager.rebalanceIfNeeded cfg gw = (Except.ok b, gw') ∧
      evCount isOpenOk gw'.log =
        evCount isOpenOk gw.log + (if b then 1 else 0) := by
  unfold PositionManager.rebalanceIfNeeded
  rcases h : RaydiumService.getPositions gw with ⟨r, gw1⟩
  have hfr := getPositions_frame gw
  rw [h] at hfr
  have hl1 : gw1.log = gw.log := by simpa using hfr.1
  have hc1 : gw1.createPositionR = gw.createPositionR := by simpa using hfr.2.1
  cases r with
  | error e =>
    dsimp only
    refine ⟨false, _, rfl, ?_⟩
    simp [GW.notify, evCount_cons, hl1, isOpenOk]
  | ok positions =>
    dsimp only
    have hg1 : gw1.goodSigs := goodSigs_of_eq hc1 hg
    by_cases hz : positions.length = 0
    · rw [if_pos hz]
      rcases createOptimalPosition_openOk cfg gw1 hg1 with ⟨osig, gw2, hco, hcount⟩
      rw [hco]
      exact ⟨jsTruthy osig, gw2, rfl, by simp [hcount, hl1]⟩
    · rw [if_neg hz]
      by_cases hoor : (positions.filter (fun q => !q.inRange)).length > 0
      · rw [if_pos hoor]
        rcases hw : PositionManager.withdrawOutOfRangePositions gw1 with ⟨rw0, gw2⟩
        have hwc := withdrawOOR_count gw1 isOpenOk (fun i r => rfl) rfl rfl
        rw [hw] at hwc
        have hwcl : evCount isOpenOk gw2.log = evCount isOpenOk gw1.log := by
          simpa using hwc.1
        have hwcc : gw2.createPositionR = gw1.createPositionR := by simpa using hwc.2
        cases rw0 with
        | error e =>
          dsimp only
          refine ⟨false, _, rfl, ?_⟩
          simp [GW.notify, evCount_cons, hwcl, hl1, isOpenOk]
        | ok sigs =>
          dsimp only
          have hg2 : gw2.goodSigs := goodSigs_of_eq (by rw [hwcc, hc1]) hg
          by_cases hs : sigs.length > 0
          · rw [if_pos hs]
            rcases createOptimalPosition_openOk cfg gw2 hg2 with ⟨osig, gw3, hco, hcount⟩
            rw [hco]
            exact ⟨jsTruthy osig, gw3, rfl, by simp [hcount, hwcl, hl1]⟩
          · rw [if_neg hs]
            exact ⟨false, gw2, rfl, by simp [hwcl, hl1]⟩
      · rw [if_neg hoor]
        exact ⟨false, gw1, rfl, by simp [hl1]⟩

/-- Generic event-count preservation for `createOptimalPosition`: it emits only
error notifications, position-created notifications, and open-position
transaction events. -/
theorem createOptimalPosition_count (cfg : Config) (gw : GW) (p : Event → Bool)
    (hpo : ∀ lo hi x y r, p (Event.openPositionTx lo hi x y r) = false)
    (hppc : p Event.notifyPositionCreated = false)
    (hpe : p Event.notifyError = false) :
    evCount p (PositionManager.createOptimalPosition cfg gw).2.log = evCount p gw.log := by
  rcases h : PositionManager.createOptimalPosition cfg gw with ⟨r, gw'⟩
  unfold PositionManager.createOptimalPosition at h
  rcases hens : (if RaydiumService.isPoolInitialized gw then (Except.ok (), gw)
      else RaydiumService.initRaydium gw) with ⟨re, gw1⟩
  rw [hens] at h
  have hl1 : gw1.log = gw.log := by
    by_cases hini : RaydiumService.isPoolInitialized gw
    · simp [hini] at hens
      obtain ⟨he, hgw⟩ := hens
      subst hgw
      rfl
    · simp [hini] at hens
      have := initRaydium_frame gw
      rw [hens] at this
      exact this.1
  cases re with
  | error e =>
    try dsimp only at h
    cases h
    simp [GW.notify, evCount_cons, hl1, hpe]
  | ok u =>
    try dsimp only at h
    rcases htb : gw1.popTokenBalances with ⟨rtb, gw2⟩
    rw [htb] at h
    have hfr2 := popTokenBalances_frame gw1
    rw [htb] at hfr2
    have hl2 : gw2.log = gw1.log := by simpa using hfr2.1
    cases rtb with
    | error e =>
      try dsimp only at h
      cases h
      simp [GW.notify, evCount_cons, hl1, hl2, hpe]
    | ok bals =>
      try dsimp only at h
      rcases hgp : RaydiumService.getPositions gw2 with ⟨rp, gw3⟩
      rw [hgp] at h
      have hfr3 := getPositions_frame gw2
      rw [hgp] at hfr3
      have hl3 : gw3.log = gw2.log := by simpa using hfr3.1
      cases rp with
      | error e =>
        try dsimp only at h
        cases h
        simp [GW.notify, evCount_cons, hl1, hl2, hl3, hpe]
      | ok positions =>
        try dsimp only at h
        by_cases hlen : positions.length > 0
        · rw [if_pos hlen] at h
          cases h
          simp [hl1, hl2, hl3]
        · rw [if_neg hlen] at h
          rcases hfp : RaydiumService.fetchPoolInfo gw3 with ⟨rf, gw4⟩
          rw [hfp] at h
          have hfr4 := fetchPoolInfo_frame gw3
          rw [hfp] at hfr4
          have hl4 : gw4.log = gw3.log := by simpa using hfr4.1
          cases rf with
          | error e =>
            try dsimp only at h
            cases h
            simp [GW.notify, evCount_cons, hl1, hl2, hl3, hl4, hpe]
          | ok pd =>
            try dsimp only at h
            rcases hba : lookupBal bals pd.mintA with _ | balA <;> rw [hba] at h <;>
              try dsimp only at h
            · cases h
              simp [hl1, hl2, hl3, hl4]
            · rcases hbb : lookupBal bals pd.mintB with _ | balB <;> rw [hbb] at h <;>
                try dsimp only at h
              · cases h
                simp [hl1, hl2, hl3, hl4]
              · by_cases hmin : balA.amount < 1000 ∨ balB.amount < 1000
                · rw [if_pos hmin] at h
                  cases h
                  simp [hl1, hl2, hl3, hl4]
                · rw [if_neg hmin] at h
                  rcases hcp : RaydiumService.createPosition cfg
                      (balA.amount * 95 / 100) (balB.amount * 95 / 100) gw4 with ⟨rc, gw5⟩
                  rw [hcp] at h
                  have hl5 := createPosition_count cfg
                    (balA.amount * 95 / 100) (balB.amount * 95 / 100) gw4 p hpo hppc hpe
                  rw [hcp] at hl5
                  cases rc with
                  | ok sig =>
                    cases h
                    simpa [hl1, hl2, hl3, hl4] using hl5
                  | error e =>
                    cases h
                    simp only [GW.notify]
                    rw [evCount_cons]
                    simp only [hpe]
                    simpa [hl1, hl2, hl3, hl4] using hl5

/-- Generic event-count preservation for `rebalanceIfNeeded`. -/
theorem rebalanceIfNeeded_count (cfg : Config) (gw : GW) (p : Event → Bool)
    (hpo : ∀ lo hi x y r, p (Event.openPositionTx lo hi x y r) = false)
    (hppc : p Event.notifyPositionCreated = false)
    (hpc : ∀ i r, p (Event.closePositionTx i r) = false)
    (hpw : p Event.notifyPositionWithdrawn = false)
    (hpe : p Event.notifyError = false) :
    evCount p (PositionManager.rebalanceIfNeeded cfg gw).2.log = evCount p gw.log := by
  rcases h : PositionManager.rebalanceIfNeeded cfg gw with ⟨r, gw'⟩
  unfold PositionManager.rebalanceIfNeeded at h
  rcases hgp : RaydiumService.getPositions gw with ⟨rp, gw1⟩
  rw [hgp] at h
  have hfr := getPositions_frame gw
  rw [hgp] at hfr
  have hl1 : gw1.log = gw.log := by simpa using hfr.1
  cases rp with
  | error e =>
    dsimp only at h
    cases h
    simp [GW.notify, evCount_cons, hl1, hpe]
  | ok positions =>
    dsimp only at h
    by_cases hz : positions.length = 0
    · rw [if_pos hz] at h
      rcases hco : PositionManager.createOptimalPosition cfg gw1 with ⟨rc, gw2⟩
      rw [hco] at h
      have hcl := createOptimalPosition_count cfg gw1 p hpo hppc hpe
      rw [hco] at hcl
      cases rc with
      | ok osig =>
        cases h
        simpa [hl1] using hcl
      | error e =>
        cases h
        simp only [GW.notify]
        rw [evCount_cons]
        simp only [hpe]
        simpa [hl1] using hcl
    · rw [if_neg hz] at h
      by_cases hoor : (positions.filter (fun q => !q.inRange)).length > 0
      · rw [if_pos hoor] at h
        rcases hw : PositionManager.withdrawOutOfRangePositions gw1 with ⟨rw0, gw2⟩
        rw [hw] at h
        have hwc := withdrawOOR_count gw1 p hpc hpw hpe
        rw [hw] at hwc
        have hwcl : evCount p gw2.log = evCount p gw1.log := by simpa using hwc.1
        cases rw0 with
        | error e =>
          dsimp only at h
          cases h
          simp [GW.notify, evCount_cons, hwcl, hl1, hpe]
        | ok sigs =>
          dsimp only at h
          by_cases hs : sigs.length > 0
          · rw [if_pos hs] at h
            rcases hco : PositionManager.createOptimalPosition cfg gw2 with ⟨rc, gw3⟩
            rw [hco] at h
            have hcl := createOptimalPosition_count cfg gw2 p hpo hppc hpe
            rw [hco] at hcl
            cases rc with
            | ok osig =>
              cases h
              simp only at hcl
              rw [hcl, hwcl, hl1]
            | error e =>
              cases h
              rw [evCount_notify p _ _ hpe]
              simp only at hcl
              rw [hcl, hwcl, hl1]
          · rw [if_neg hs] at h
            cases h
            rw [hwcl, hl1]
      · rw [if_neg hoor] at h
        cases h
        rw [hl1]

/-- `runIteration` never rejects, does not touch the running/timer flags, and
preserves the count of any event kind it cannot emit (it emits only error,
low-balance, position and transaction events). -/
theorem runIteration_spec (cfg : Config) (b : BotState) (gw : GW) (p : Event → Bool)
    (hpo : ∀ lo hi x y r, p (Event.openPositionTx lo hi x y r) = false)
    (hppc : p Event.notifyPositionCreated = false)
    (hpc : ∀ i r, p (Event.closePositionTx i r) = false)
    (hpw : p Event.notifyPositionWithdrawn = false)
    (hplb : p Event.notifyLowBalance = false)
    (hpe : p Event.notifyError = false) :
    ∃ b2 gw2, LiquidityBot.runIteration cfg b gw = (Except.ok (), b2, gw2) ∧
      b2.isRunning = b.isRunning ∧ b2.timerArmed = b.timerArmed ∧
      evCount p gw2.log = evCount p gw.log := by
  unfold LiquidityBot.runIteration
  rcases hcp : PoolMonitor.checkPrice cfg b.lastCheckedPrice gw with ⟨rp, last1, gw1⟩
  have hfr1 := checkPrice_frame cfg b.lastCheckedPrice gw
  rw [hcp] at hfr1
  have hl1 : gw1.log = gw.log := by simpa using hfr1.1
  cases rp with
  | error e =>
    dsimp only
    exact ⟨_, _, rfl, rfl, rfl, by simp [GW.notify, evCount_cons, hl1, hpe]⟩
  | ok priceInfo =>
    dsimp only
    rcases hcpos : PoolMonitor.checkPositions gw1 with ⟨rpos, gw2⟩
    have hfr2 := checkPositions_frame gw1
    rw [hcpos] at hfr2
    have hl2 : gw2.log = gw1.log := by simpa using hfr2.1
    cases rpos with
    | error e =>
      dsimp only
      exact ⟨_, _, rfl, rfl, rfl, by simp [GW.notify, evCount_cons, hl1, hl2, hpe]⟩
    | ok counts =>
      dsimp only
      rcases hcb : PoolMonitor.checkWalletBalances cfg gw2 with ⟨rb, gw3⟩
      have hfr3 := checkWalletBalances_count cfg gw2 p hplb
      rw [hcb] at hfr3
      have hl3 : evCount p gw3.log = evCount p gw2.log := by simpa using hfr3.1
      cases rb with
      | error e =>
        dsimp only
        refine ⟨_, _, rfl, rfl, rfl, ?_⟩
        rw [evCount_notify p _ _ hpe, hl3, hl2, hl1]
      | ok binfo =>
        dsimp only
        by_cases hdec : LiquidityBot.shouldRebalance priceInfo.significantChange counts.2 counts.1
        · rw [if_pos hdec]
          rcases hrb : PositionManager.rebalanceIfNeeded cfg gw3 with ⟨rr, gw4⟩
          have hrc := rebalanceIfNeeded_count cfg gw3 p hpo hppc hpc hpw hpe
          rw [hrb] at hrc
          simp only at hrc
          cases rr with
          | ok bres =>
            dsimp only
            exact ⟨_, _, rfl, rfl, rfl, by rw [hrc, hl3, hl2, hl1]⟩
          | error e =>
            dsimp only
            refine ⟨_, _, rfl, rfl, rfl, ?_⟩
            rw [evCount_notify p _ _ hpe, hrc, hl3, hl2, hl1]
        · rw [if_neg hdec]
          exact ⟨_, _, rfl, rfl, rfl, by rw [hl3, hl2, hl1]⟩

/-! ### Claim theorems -/

/-- C5: the rebalance decision of `runIteration` is true iff the price sample
flags a significant change, or some position is out of range, or no position
exists; it is a pure function of exactly these three inputs (its Lean
embedding takes nothing else), so the equivalence is checkable over the whole
8-entry truth table of the three conditions. -/
theorem claim_C5 (s : Bool) (o c : Nat) :
    LiquidityBot.shouldRebalance s o c = true ↔ (s = true ∨ 0 < o ∨ c = 0) := by
  unfold LiquidityBot.shouldRebalance
  rcases s <;> by_cases ho : 0 < o <;> by_cases hc : c = 0 <;>
    simp [ho, hc]

/-- C6: a successful `checkPrice` stores the observed price as the new last
price; on the first observation the percent change is `none` and the
significant-change flag is false; against a previous price `prev > 0` the
percent change is `|p - prev| / prev` and the flag is set iff it strictly
exceeds `rebalanceThresholdPercent / 100`. -/
theorem claim_C6 (cfg : Config) (last : Option Rat) (gw : GW)
    (sample : PriceSample) (st' : Option Rat) (gw' : GW)
    (h : PoolMonitor.checkPrice cfg last gw = (Except.ok sample, st', gw')) :
    st' = some sample.currentPrice ∧
    (last = none → sample.percentChange = none ∧ sample.significantChange = false) ∧
    (∀ prev, last = some prev → 0 < prev →
      sample.percentChange = some (|sample.currentPrice - prev| / prev) ∧
      (sample.significantChange = true ↔
        |sample.currentPrice - prev| / prev > cfg.rebalanceThresholdPercent / 100)) := by
  unfold PoolMonitor.checkPrice at h
  rcases hens : (if RaydiumService.isPoolInitialized gw then (Except.ok (), gw)
      else RaydiumService.initRaydium gw) with ⟨re, gw1⟩
  rw [hens] at h
  cases re with
  | error e =>
    dsimp only at h
    simp at h
  | ok u =>
    dsimp only at h
    rcases hgc : RaydiumService.getCurrentPrice gw1 with e | cp <;> rw [hgc] at h
    · simp at h
    · cases last with
      | none =>
        dsimp only at h
        simp only [Prod.mk.injEq, Except.ok.injEq] at h
        obtain ⟨hs, hst, hgw⟩ := h
        subst hs
        subst hst
        simp
      | some prev =>
        dsimp only at h
        simp only [Prod.mk.injEq, Except.ok.injEq] at h
        obtain ⟨hs, hst, hgw⟩ := h
        subst hs
        subst hst
        refine ⟨rfl, by simp, ?_⟩
        intro q hq hqpos
        cases hq
        refine ⟨rfl, ?_⟩
        simp [PoolMonitor.threshold, decide_eq_true_iff]

/-- Concrete instantiation of C6: previous price 4, new price 5, threshold
20 percent; the 25 percent move is flagged as significant. -/
def gwC6 : GW := ⟨some ⟨7, 8, 5⟩, [], [], [], [], [], [], []⟩

def cfgC6 : Config := ⟨5, 20, 1⟩

def sampleC6 : PriceSample := ⟨5, true, some (1/4)⟩

theorem claim_C6_witness :
    PoolMonitor.checkPrice cfgC6 (some 4) gwC6 = (Except.ok sampleC6, some 5, gwC6) ∧
    (some (5 : Rat) = some sampleC6.currentPrice ∧
    (some (4 : Rat) = none → sampleC6.percentChange = none ∧ sampleC6.significantChange = false) ∧
    (∀ prev, some (4 : Rat) = some prev → 0 < prev →
      sampleC6.percentChange = some (|sampleC6.currentPrice - prev| / prev) ∧
      (sampleC6.significantChange = true ↔
        |sampleC6.currentPrice - prev| / prev > cfgC6.rebalanceThresholdPercent / 100))) :=
  ⟨by simp [PoolMonitor.checkPrice, PoolMonitor.threshold, RaydiumService.isPoolInitialized,
      RaydiumService.getCurrentPrice, cfgC6, gwC6, sampleC6]; norm_num,
   claim_C6 cfgC6 (some 4) gwC6 sampleC6 (some 5) gwC6
     (by simp [PoolMonitor.checkPrice, PoolMonitor.threshold, RaydiumService.isPoolInitialized,
       RaydiumService.getCurrentPrice, cfgC6, gwC6, sampleC6]; norm_num)⟩

/-- C10: when `checkPrice` fails (pool-info fetch or price read rejects), the
stored last price is left unchanged — the next successful call keeps using the
same drift baseline — and the error is re-raised by the catch block. -/
theorem claim_C10 (cfg : Config) (last : Option Rat) (gw : GW)
    (e : Err) (st' : Option Rat) (gw' : GW)
    (h : PoolMonitor.checkPrice cfg last gw = (Except.error e, st', gw')) :
    st' = last := by
  unfold PoolMonitor.checkPrice at h
  rcases hens : (if RaydiumService.isPoolInitialized gw then (Except.ok (), gw)
      else RaydiumService.initRaydium gw) with ⟨re, gw1⟩
  rw [hens] at h
  cases re with
  | error e2 =>
    dsimp only at h
    simp only [Prod.mk.injEq] at h
    exact h.2.1.symm
  | ok u =>
    dsimp only at h
    rcases hgc : RaydiumService.getCurrentPrice gw1 with e2 | cp <;> rw [hgc] at h
    · dsimp only at h
      simp only [Prod.mk.injEq] at h
      exact h.2.1.symm
    · cases last with
      | none => simp at h
      | some prev => simp at h

def gwC10 : GW := ⟨none, [], [], [], [], [], [], []⟩

theorem claim_C10_witness :
    PoolMonitor.checkPrice cfgC6 (some 4) gwC10 =
      (Except.error (Err.gwRead 0), some 4, gwC10) ∧ some (4 : Rat) = some 4 :=
  ⟨by simp [PoolMonitor.checkPrice, RaydiumService.isPoolInitialized,
      RaydiumService.initRaydium, RaydiumService.fetchPoolInfo, GW.popFetchPool, gwC10],
   claim_C10 cfgC6 (some 4) gwC10 (Err.gwRead 0) (some 4) gwC10
     (by simp [PoolMonitor.checkPrice, RaydiumService.isPoolInitialized,
       RaydiumService.initRaydium, RaydiumService.fetchPoolInfo, GW.popFetchPool, gwC10]) ▸ rfl⟩

/-- C3 (divergence witness): the cron callback installed by `start` invokes
`runIteration` unconditionally — `cronTick` is its tick-dispatch embedding —
so two ticks arriving before the first iteration finishes leave two iterations
running concurrently, not one: the claimed single-flight guard is absent from
the source. -/
theorem claim_C3_code : (cronTick (cronTick ⟨0⟩)).inFlight = 2 := rfl

/-- `getPositions` with cached pool info and a successful queued read: returns
the decorated positions and consumes exactly that queue entry. -/
theorem getPositions_some (gw : GW) (pd : PoolData) (raws : List RawPos)
    (rest : List (Except Err (List RawPos)))
    (hpd : gw.poolData = some pd) (hq : gw.getPositionsR = Except.ok raws :: rest) :
    RaydiumService.getPositions gw =
      (Except.ok (raws.map (fun p =>
        { positionId := p.positionId
          lowerPrice := p.lowerPrice
          upperPrice := p.upperPrice
          currentPrice := pd.price
          inRange := decide (p.lowerPrice ≤ pd.price ∧ pd.price ≤ p.upperPrice) })),
       { gw with getPositionsR := rest }) := by
  rcases gw with ⟨pd0, fq, posq, tq, sq, cq, wq, lg⟩
  simp only at hpd hq
  subst hpd
  subst hq
  unfold RaydiumService.getPositions RaydiumService.getCurrentPrice GW.popPositions
  simp

/-- `withdrawPosition` with cached pool info: its result is the next queued
close-position response, one response is consumed, and the cache survives. -/
theorem withdrawPosition_some (pid : Nat) (gw : GW) (pd : PoolData)
    (hpd : gw.poolData = some pd) :
    (RaydiumService.withdrawPosition pid gw).1 = (gw.popWithdraw).1 ∧
    (RaydiumService.withdrawPosition pid gw).2.withdrawPositionR =
      gw.withdrawPositionR.tail ∧
    (RaydiumService.withdrawPosition pid gw).2.poolData = some pd := by
  rcases gw with ⟨pd0, fq, posq, tq, sq, cq, wq, lg⟩
  simp only at hpd
  subst hpd
  unfold RaydiumService.withdrawPosition GW.popWithdraw GW.notify
  rcases wq with _ | ⟨_ | ws, wr⟩ <;> simp

/-- The withdrawal loop agrees with its pure specification `loopSpec`: it
returns the accumulated signatures extended by the successful prefix, stops at
the first failure, and consumes exactly the processed responses. -/
theorem withdrawLoop_spec (ps : List PositionInfo) (acc : List String) (gw : GW)
    (pd : PoolData) (hpd : gw.poolData = some pd) :
    (PositionManager.withdrawLoop ps acc gw).1 =
      (match (loopSpec ps.length gw.withdrawPositionR).1 with
       | Except.ok sigs => Except.ok (acc ++ sigs)
       | Except.error e => Except.error e) ∧
    (PositionManager.withdrawLoop ps acc gw).2.withdrawPositionR =
      gw.withdrawPositionR.drop (loopSpec ps.length gw.withdrawPositionR).2 := by
  induction ps generalizing acc gw with
  | nil => simp [PositionManager.withdrawLoop, loopSpec]
  | cons q rest ih =>
    unfold PositionManager.withdrawLoop
    rcases hwp : RaydiumService.withdrawPosition q.positionId gw with ⟨rw0, gw1⟩
    have hs := withdrawPosition_some q.positionId gw pd hpd
    rw [hwp] at hs
    rcases hs with ⟨hres, hq, hpd1⟩
    simp only at hres hq hpd1
    rcases hwq : gw.withdrawPositionR with _ | ⟨ws, wr⟩
    · rw [hwq] at hq
      simp only [GW.popWithdraw, hwq] at hres
      subst hres
      simp [loopSpec, hq, hwq]
    · rw [hwq] at hq
      simp only [GW.popWithdraw, hwq] at hres
      cases ws with
      | error e =>
        subst hres
        simp [loopSpec, hq, hwq]
      | ok s =>
        subst hres
        dsimp only
        have hih := ih (acc ++ [s]) gw1 hpd1
        have hq1 : gw1.withdrawPositionR = wr := by simpa using hq
        rw [hq1] at hih
        simp only [loopSpec, List.length_cons]
        rcases hls : loopSpec rest.length wr with ⟨rl, k⟩
        rw [hls] at hih
        cases rl <;> simp_all [List.append_assoc]

theorem filter_map_comp {α β : Type} (f : α → β) (p : β → Bool) (l : List α) :
    (l.map f).filter p = (l.filter (fun a => p (f a))).map f := by
  induction l with
  | nil => rfl
  | cons a l ih =>
    simp only [List.map_cons, List.filter_cons]
    by_cases hp : p (f a) <;> simp [hp, ih]

/-- C1 (amended): `withdrawOutOfRangePositions` never rejects; when every
withdrawal succeeds it returns all collected signatures in order, but when any
single withdrawal fails the loop stops immediately (exactly the responses up to
the failure are consumed) and the catch block returns the EMPTY list — the
signatures collected before the failure are discarded, not returned. -/
theorem claim_C1_amended :
    (∀ gw : GW, ∃ sigs gw',
       PositionManager.withdrawOutOfRangePositions gw = (Except.ok sigs, gw')) ∧
    (∀ gw pd raws rest, gw.poolData = some pd →
       gw.getPositionsR = Except.ok raws :: rest →
       ∀ n, n = (raws.filter (fun q =>
           !(decide (q.lowerPrice ≤ pd.price ∧ pd.price ≤ q.upperPrice)))).length →
       ((∀ e, (loopSpec n gw.withdrawPositionR).1 = Except.error e →
           (PositionManager.withdrawOutOfRangePositions gw).1 = Except.ok []) ∧
        (∀ sigs, (loopSpec n gw.withdrawPositionR).1 = Except.ok sigs →
           (PositionManager.withdrawOutOfRangePositions gw).1 = Except.ok sigs) ∧
        (PositionManager.withdrawOutOfRangePositions gw).2.withdrawPositionR =
           gw.withdrawPositionR.drop (loopSpec n gw.withdrawPositionR).2)) := by
  constructor
  · intro gw
    unfold PositionManager.withdrawOutOfRangePositions
    rcases h : RaydiumService.getPositions gw with ⟨r, gw1⟩
    cases r with
    | error e => exact ⟨[], _, rfl⟩
    | ok positions =>
      dsimp only
      by_cases hz : (positions.filter (fun p => !p.inRange)).length = 0
      · rw [if_pos hz]
        exact ⟨[], gw1, rfl⟩
      · rw [if_neg hz]
        rcases hwl : PositionManager.withdrawLoop
          (positions.filter (fun p => !p.inRange)) [] gw1 with ⟨rl, gw2⟩
        cases rl with
        | ok sigs => exact ⟨sigs, gw2, rfl⟩
        | error e => exact ⟨[], _, rfl⟩
  · intro gw pd raws rest hpd hq n hn
    have hgp := getPositions_some gw pd raws rest hpd hq
    have hoor : ((raws.map (fun p =>
        ({ positionId := p.positionId
           lowerPrice := p.lowerPrice
           upperPrice := p.upperPrice
           currentPrice := pd.price
           inRange := decide (p.lowerPrice ≤ pd.price ∧ pd.price ≤ p.upperPrice) }
           : PositionInfo))).filter (fun p => !p.inRange)) =
        ((raws.filter (fun q =>
           !(decide (q.lowerPrice ≤ pd.price ∧ pd.price ≤ q.upperPrice)))).map (fun p =>
        { positionId := p.positionId
          lowerPrice := p.lowerPrice
          upperPrice := p.upperPrice
          currentPrice := pd.price
          inRange := decide (p.lowerPrice ≤ pd.price ∧ pd.price ≤ p.upperPrice) })) := by
      rw [filter_map_comp]
    unfold PositionManager.withdrawOutOfRangePositions
    rw [hgp]
    dsimp only
    rw [hoor]
    by_cases hz : n = 0
    · rw [if_pos (by rw [List.length_map, ← hn]; exact hz)]
      subst hz
      refine ⟨?_, ?_, ?_⟩
      · intro e habs
        cases habs
      · intro sigs hsig
        cases hsig
        rfl
      · rfl
    · rw [if_neg (by rw [List.length_map, ← hn]; exact hz)]
      have hpd1 : ({ gw with getPositionsR := rest } : GW).poolData = some pd := hpd
      have hspec := withdrawLoop_spec
        ((raws.filter (fun q =>
           !(decide (q.lowerPrice ≤ pd.price ∧ pd.price ≤ q.upperPrice)))).map (fun p =>
          ({ positionId := p.positionId
             lowerPrice := p.lowerPrice
             upperPrice := p.upperPrice
             currentPrice := pd.price
             inRange := decide (p.lowerPrice ≤ pd.price ∧ pd.price ≤ p.upperPrice) }
             : PositionInfo)))
        [] { gw with getPositionsR := rest } pd hpd1
      rcases hwl : PositionManager.withdrawLoop _ _ _ with ⟨rl, gw2⟩
      rw [hwl] at hspec
      simp only [List.length_map, ← hn] at hspec
      rcases hspec with ⟨hres, hqout⟩
      try simp only at hres hqout
      rcases hls : loopSpec n gw.withdrawPositionR with ⟨rl2, k⟩
      rw [hls] at hres hqout
      try simp only at hres hqout
      cases rl2 with
      | error e =>
        subst hres
        refine ⟨?_, ?_, ?_⟩
        · intro e2 _
          rfl
        · intro sigs hsig
          simp at hsig
        · simpa [GW.notify] using hqout
      | ok sigs =>
        simp only [List.nil_append] at hres
        subst hres
        refine ⟨?_, ?_, ?_⟩
        · intro e2 habs
          simp at habs
        · intro sigs2 hsig
          simp only [Except.ok.injEq] at hsig
          subst hsig
          rfl
        · simpa using hqout

/-- A gateway with two out-of-range positions where the first withdrawal
succeeds with signature s1 and the second rejects. -/
def cxC1gw : GW :=
  ⟨some ⟨7, 8, 10⟩, [], [Except.ok [⟨101, 1, 2⟩, ⟨102, 3, 4⟩]], [], [], [],
   [Except.ok ("s1"), Except.error (Err.txFail 7)], []⟩

/-- C1 (counterexample): with two out-of-range positions, the first withdrawal
completing with signature s1 and the second failing, the source's catch block
returns the EMPTY signature list — not the claimed partial list containing s1 —
even though the first close-position transaction did happen (it is in the log). -/
theorem claim_C1_counterexample :
    (PositionManager.withdrawOutOfRangePositions cxC1gw).1 = Except.ok [] ∧
    Event.closePositionTx 101 (Except.ok ("s1")) ∈
      (PositionManager.withdrawOutOfRangePositions cxC1gw).2.log := by
  decide

theorem claim_C1_witness :
    (∃ sigs gw',
      PositionManager.withdrawOutOfRangePositions cxC1gw = (Except.ok sigs, gw')) ∧
    (PositionManager.withdrawOutOfRangePositions cxC1gw).1 = Except.ok [] :=
  ⟨claim_C1_amended.1 cxC1gw,
   (claim_C1_amended.2 cxC1gw ⟨7, 8, 10⟩ [⟨101, 1, 2⟩, ⟨102, 3, 4⟩] [] rfl rfl 2
      (by decide)).1 (Err.txFail 7) (by decide)⟩

/-- `rebalanceIfNeeded` resolves on every gateway state: each branch of its
definition, including the catch, yields a plain boolean. -/
theorem rebalanceIfNeeded_ok (cfg : Config) (gw : GW) :
    ∃ b gw', PositionManager.rebalanceIfNeeded cfg gw = (Except.ok b, gw') := by
  unfold PositionManager.rebalanceIfNeeded
  rcases h : RaydiumService.getPositions gw with ⟨r, gw1⟩
  cases r with
  | error e => exact ⟨false, _, rfl⟩
  | ok positions =>
    dsimp only
    by_cases hz : positions.length = 0
    · rw [if_pos hz]
      rcases hco : PositionManager.createOptimalPosition cfg gw1 with ⟨rc, gw2⟩
      cases rc with
      | ok osig => exact ⟨jsTruthy osig, gw2, rfl⟩
      | error e => exact ⟨false, _, rfl⟩
    · rw [if_neg hz]
      by_cases hoor : (positions.filter (fun q => !q.inRange)).length > 0
      · rw [if_pos hoor]
        rcases hw : PositionManager.withdrawOutOfRangePositions gw1 with ⟨rw0, gw2⟩
        cases rw0 with
        | error e => exact ⟨false, _, rfl⟩
        | ok sigs =>
          dsimp only
          by_cases hs : sigs.length > 0
          · rw [if_pos hs]
            rcases hco : PositionManager.createOptimalPosition cfg gw2 with ⟨rc, gw3⟩
            cases rc with
            | ok osig => exact ⟨jsTruthy osig, gw3, rfl⟩
            | error e => exact ⟨false, _, rfl⟩
          · rw [if_neg hs]
            exact ⟨false, gw2, rfl⟩
      · rw [if_neg hoor]
        exact ⟨false, gw1, rfl⟩

/-- C4: for every gateway state and every pattern of thrown errors inside,
`rebalanceIfNeeded` resolves (never propagates an exception); and whenever the
gateway's accepted open-position signatures are truthy strings, its result is
`true` exactly when a position-create submission succeeded during the call
(one more successful open-position event in the log); in every other case —
including a successful withdraw followed by a failed create — it returns
`false`, with no successful create logged. -/
theorem claim_C4 :
    (∀ (cfg : Config) (gw : GW),
      ∃ b gw', PositionManager.rebalanceIfNeeded cfg gw = (Except.ok b, gw')) ∧
    (∀ (cfg : Config) (gw : GW), gw.goodSigs →
      ∃ b gw', PositionManager.rebalanceIfNeeded cfg gw = (Except.ok b, gw') ∧
        (b = true ↔ evCount isOpenOk gw'.log = evCount isOpenOk gw.log + 1) ∧
        (b = false → evCount isOpenOk gw'.log = evCount isOpenOk gw.log)) := by
  refine ⟨rebalanceIfNeeded_ok, ?_⟩
  intro cfg gw hg
  rcases rebalanceIfNeeded_openOk cfg gw hg with ⟨b, gw', heq, hcount⟩
  refine ⟨b, gw', heq, ?_, ?_⟩
  · cases b <;> simp at hcount <;> simp [hcount]
  · intro hb
    subst hb
    simpa using hcount

/-- A gateway for C4: one out-of-range position, its withdrawal succeeds, then
the dependent create submission is rejected — the withdrawal happened but the
call returns false. -/
def cxC4gw : GW :=
  ⟨some ⟨7, 8, 10⟩,
   [Except.ok ⟨7, 8, 10⟩],
   [Except.ok [⟨101, 1, 2⟩], Except.ok [⟨101, 1, 2⟩], Except.ok []],
   [Except.ok [(7, ⟨7, 2000, 9, 2⟩), (8, ⟨8, 5000, 6, 5⟩)]],
   [],
   [Except.error (Err.txFail 3)],
   [Except.ok ("w1")],
   []⟩

theorem claim_C4_witness :
    cxC4gw.goodSigs ∧
    (∃ b gw', PositionManager.rebalanceIfNeeded ⟨5, 1, 1⟩ cxC4gw = (Except.ok b, gw')) ∧
    ∃ b gw', PositionManager.rebalanceIfNeeded ⟨5, 1, 1⟩ cxC4gw = (Except.ok b, gw') ∧
      (b = true ↔ evCount isOpenOk gw'.log = evCount isOpenOk cxC4gw.log + 1) ∧
      (b = false → evCount isOpenOk gw'.log = evCount isOpenOk cxC4gw.log) :=
  ⟨by decide, claim_C4.1 ⟨5, 1, 1⟩ cxC4gw, claim_C4.2 ⟨5, 1, 1⟩ cxC4gw (by decide)⟩

/-- `fetchPoolInfo` on a queue whose head is a successful read. -/
theorem fetchPoolInfo_head_ok (gw : GW) (pd : PoolData)
    (rest : List (Except Err PoolData)) (hq : gw.fetchPoolInfoR = Except.ok pd :: rest) :
    RaydiumService.fetchPoolInfo gw =
      (Except.ok pd, { gw with poolData := some pd, fetchPoolInfoR := rest }) := by
  rcases gw with ⟨pd0, fq, posq, tq, sq, cq, wq, lg⟩
  simp only at hq
  subst hq
  unfold RaydiumService.fetchPoolInfo GW.popFetchPool
  simp

/-- C2 (amended): `start()` NEVER lets an error escape; in particular when
resolving pool metadata fails, the failure is caught inside `start` — two
error notifications are sent (one by `initialize`'s catch, one by `start`'s
catch), the bot state is returned unchanged (not running, no timer armed, no
"Bot Started" notification), and `start` resolves normally. -/
theorem claim_C2_amended :
    (∀ cfg b gw, (LiquidityBot.start cfg b gw).1 = Except.ok ()) ∧
    (∀ cfg (b : BotState) (gw : GW) e rest, b.isRunning = false →
       gw.fetchPoolInfoR = Except.error e :: rest →
       ∃ gw', LiquidityBot.start cfg b gw = (Except.ok (), b, gw') ∧
         gw'.log = Event.notifyError :: Event.notifyError :: gw.log) := by
  constructor
  · intro cfg b gw
    unfold LiquidityBot.start
    by_cases hr : b.isRunning
    · rw [if_pos hr]
    · rw [if_neg hr]
      rcases hib : LiquidityBot.initBot gw with ⟨ri, gw1⟩
      cases ri with
      | error e => rfl
      | ok u =>
        dsimp only
        rcases hri : LiquidityBot.runIteration cfg
          { b with isRunning := true, timerArmed := true }
          (gw1.notify Event.armTimer) with ⟨ru, b2, gw3⟩
        cases ru <;> rfl
  · intro cfg b gw e rest hr hq
    have hfp : RaydiumService.fetchPoolInfo gw =
        (Except.error e, { gw with fetchPoolInfoR := rest }) := by
      rcases gw with ⟨pd0, fq, posq, tq, sq, cq, wq, lg⟩
      simp only at hq
      subst hq
      unfold RaydiumService.fetchPoolInfo GW.popFetchPool
      simp
    unfold LiquidityBot.start LiquidityBot.initBot RaydiumService.initRaydium
    rw [if_neg (by simp [hr]), hfp]
    exact ⟨_, rfl, rfl⟩

def cxC2gw : GW := ⟨none, [Except.error (Err.gwRead 9)], [], [], [], [], [], []⟩

/-- C2 (counterexample): with the pool-metadata fetch rejecting, `start()`
resolves with no error (the catch in `start` swallows it) and the bot is left
stopped — the claimed propagation to the host does not happen. -/
theorem claim_C2_counterexample :
    (LiquidityBot.start ⟨5, 1, 1⟩ ⟨false, false, none⟩ cxC2gw).1 = Except.ok () ∧
    (LiquidityBot.start ⟨5, 1, 1⟩ ⟨false, false, none⟩ cxC2gw).2.1.isRunning = false := by
  decide

theorem claim_C2_witness :
    (⟨false, false, none⟩ : BotState).isRunning = false ∧
    cxC2gw.fetchPoolInfoR = Except.error (Err.gwRead 9) :: [] ∧
    ((LiquidityBot.start ⟨5, 1, 1⟩ ⟨false, false, none⟩ cxC2gw).1 = Except.ok () ∧
     ∃ gw', LiquidityBot.start ⟨5, 1, 1⟩ ⟨false, false, none⟩ cxC2gw =
         (Except.ok (), ⟨false, false, none⟩, gw') ∧
       gw'.log = Event.notifyError :: Event.notifyError :: cxC2gw.log) :=
  ⟨rfl, rfl,
   claim_C2_amended.1 ⟨5, 1, 1⟩ ⟨false, false, none⟩ cxC2gw,
   claim_C2_amended.2 ⟨5, 1, 1⟩ ⟨false, false, none⟩ cxC2gw (Err.gwRead 9) [] rfl rfl⟩

/-- C9: starting an already-running bot is a no-op — across two consecutive
`start()` calls exactly one "Bot Started" notification is sent and exactly one
timer is armed — and `stop()` on a non-running bot is a no-op that sends no
notification (state and log are returned untouched). -/
theorem claim_C9 (cfg : Config) (b : BotState) (gw : GW) (pd : PoolData)
    (rest : List (Except Err PoolData))
    (hnr : b.isRunning = false)
    (hq : gw.fetchPoolInfoR = Except.ok pd :: rest) :
    ∃ b1 gw1, LiquidityBot.start cfg b gw = (Except.ok (), b1, gw1) ∧
      b1.isRunning = true ∧ b1.timerArmed = true ∧
      LiquidityBot.start cfg b1 gw1 = (Except.ok (), b1, gw1) ∧
      evCount isBotStarted gw1.log = evCount isBotStarted gw.log + 1 ∧
      evCount isArmTimer gw1.log = evCount isArmTimer gw.log + 1 ∧
      (∀ (b0 : BotState) (gw0 : GW), b0.isRunning = false →
        LiquidityBot.stop b0 gw0 = (Except.ok (), b0, gw0)) := by
  have hfp := fetchPoolInfo_head_ok gw pd rest hq
  have hib : LiquidityBot.initBot gw = (Except.ok (),
      (({ gw with poolData := some pd, fetchPoolInfoR := rest } : GW)).notify
        Event.notifyBotStarted) := by
    unfold LiquidityBot.initBot RaydiumService.initRaydium
    rw [hfp]
  rcases runIteration_spec cfg { b with isRunning := true, timerArmed := true }
      (((({ gw with poolData := some pd, fetchPoolInfoR := rest } : GW)).notify
        Event.notifyBotStarted).notify Event.armTimer) isBotStarted
      (fun _ _ _ _ _ => rfl) rfl (fun _ _ => rfl) rfl rfl rfl with
    ⟨b2, gw2, hrun, hflagR, hflagT, hcntBS⟩
  rcases runIteration_spec cfg { b with isRunning := true, timerArmed := true }
      (((({ gw with poolData := some pd, fetchPoolInfoR := rest } : GW)).notify
        Event.notifyBotStarted).notify Event.armTimer) isArmTimer
      (fun _ _ _ _ _ => rfl) rfl (fun _ _ => rfl) rfl rfl rfl with
    ⟨b2x, gw2x, hrunx, _, _, hcntAT⟩
  rw [hrun] at hrunx
  injection hrunx with h1 h23
  injection h23 with hbx hgwx
  subst hbx
  subst hgwx
  have hstart1 : LiquidityBot.start cfg b gw = (Except.ok (), b2, gw2) := by
    unfold LiquidityBot.start
    rw [if_neg (by simp [hnr]), hib]
    dsimp only
    rw [hrun]
  refine ⟨b2, gw2, hstart1, ?_, ?_, ?_, ?_, ?_, ?_⟩
  · rw [hflagR]
  · rw [hflagT]
  · unfold LiquidityBot.start
    rw [if_pos (by rw [hflagR])]
  · rw [hcntBS]
    simp [GW.notify, evCount_cons, isBotStarted, isArmTimer, Nat.add_comm]
  · rw [hcntAT]
    simp [GW.notify, evCount_cons, isBotStarted, isArmTimer, Nat.add_comm]
  · intro b0 gw0 h0
    unfold LiquidityBot.stop
    rw [if_pos (by simp [h0])]

def cxC9gw : GW := ⟨none, [Except.ok ⟨7, 8, 10⟩], [], [], [], [], [], []⟩

theorem claim_C9_witness :
    (⟨false, false, none⟩ : BotState).isRunning = false ∧
    cxC9gw.fetchPoolInfoR = Except.ok ⟨7, 8, 10⟩ :: [] ∧
    (∃ b1 gw1,
      LiquidityBot.start ⟨5, 1, 1⟩ ⟨false, false, none⟩ cxC9gw = (Except.ok (), b1, gw1) ∧
      b1.isRunning = true ∧ b1.timerArmed = true ∧
      LiquidityBot.start ⟨5, 1, 1⟩ b1 gw1 = (Except.ok (), b1, gw1) ∧
      evCount isBotStarted gw1.log = evCount isBotStarted cxC9gw.log + 1 ∧
      evCount isArmTimer gw1.log = evCount isArmTimer cxC9gw.log + 1 ∧
      (∀ (b0 : BotState) (gw0 : GW), b0.isRunning = false →
        LiquidityBot.stop b0 gw0 = (Except.ok (), b0, gw0))) :=
  ⟨rfl, rfl, claim_C9 ⟨5, 1, 1⟩ ⟨false, false, none⟩ cxC9gw ⟨7, 8, 10⟩ [] rfl rfl⟩

/-- `getPositions` with a successful queued read either rethrows an earlier
pool-fetch failure or returns the queue head decorated at some current price. -/
theorem getPositions_head_ok (gw : GW) (l : List RawPos)
    (rest : List (Except Err (List RawPos)))
    (hq : gw.getPositionsR = Except.ok l :: rest) :
    (∃ e gw1, RaydiumService.getPositions gw = (Except.error e, gw1)) ∨
    (∃ gw1 cp, RaydiumService.getPositions gw =
      (Except.ok (l.map (fun p =>
        { positionId := p.positionId
          lowerPrice := p.lowerPrice
          upperPrice := p.upperPrice
          currentPrice := cp
          inRange := decide (p.lowerPrice ≤ cp ∧ cp ≤ p.upperPrice) })), gw1)) := by
  rcases gw with ⟨pd0, fq, posq, tq, sq, cq, wq, lg⟩
  simp only at hq
  subst hq
  unfold RaydiumService.getPositions RaydiumService.fetchPoolInfo
    RaydiumService.getCurrentPrice GW.popFetchPool GW.popPositions
  rcases pd0 with _ | pd <;> rcases fq with _ | ⟨_ | fp, fr⟩ <;> dsimp only <;>
    first
      | exact Or.inl ⟨_, _, rfl⟩
      | exact Or.inr ⟨_, _, rfl⟩

/-- C7: `createOptimalPosition` submits nothing and returns none (a) whenever
the positions read returns a non-empty list — regardless of balances — and
(b) whenever both pool-token balances are present but either raw amount is
below the fixed 1000-unit floor, with no existing position; the two no-action
branches hold independently. -/
theorem claim_C7 (cfg : Config) :
    (∀ (gw : GW) (l : List RawPos) rest,
       gw.getPositionsR = Except.ok l :: rest → l ≠ [] →
       (PositionManager.createOptimalPosition cfg gw).1 = Except.ok none ∧
       evCount isOpenTx (PositionManager.createOptimalPosition cfg gw).2.log =
         evCount isOpenTx gw.log) ∧
    (∀ (pd : PoolData) (bals : List (Nat × TokenBalance))
       (createq : List (Except Err String)) (balA balB : TokenBalance),
       lookupBal bals pd.mintA = some balA →
       lookupBal bals pd.mintB = some balB →
       (balA.amount < 1000 ∨ balB.amount < 1000) →
       (PositionManager.createOptimalPosition cfg
         ⟨some pd, [Except.ok pd], [Except.ok []], [Except.ok bals],
          [Except.ok 1], createq, [], []⟩).1 = Except.ok none ∧
       evCount isOpenTx (PositionManager.createOptimalPosition cfg
         ⟨some pd, [Except.ok pd], [Except.ok []], [Except.ok bals],
          [Except.ok 1], createq, [], []⟩).2.log = 0) := by
  constructor
  · intro gw l rest hq hl
    unfold PositionManager.createOptimalPosition
    rcases hens : (if RaydiumService.isPoolInitialized gw then (Except.ok (), gw)
        else RaydiumService.initRaydium gw) with ⟨re, gw1⟩
    have hfr1 : gw1.log = gw.log ∧ gw1.getPositionsR = gw.getPositionsR := by
      by_cases hini : RaydiumService.isPoolInitialized gw
      · simp [hini] at hens
        obtain ⟨he, hgw⟩ := hens
        subst hgw
        exact ⟨rfl, rfl⟩
      · simp [hini] at hens
        have := initRaydium_frame gw
        rw [hens] at this
        exact ⟨this.1, this.2.2.1⟩
    rcases hfr1 with ⟨hl1, hq1⟩
    cases re with
    | error e =>
      dsimp only
      exact ⟨rfl, by simp [GW.notify, evCount_cons, isOpenTx, hl1]⟩
    | ok u =>
      dsimp only
      rcases htb : gw1.popTokenBalances with ⟨rtb, gw2⟩
      have hfr2 := popTokenBalances_frame gw1
      rw [htb] at hfr2
      have hl2 : gw2.log = gw1.log := by simpa using hfr2.1
      have hq2 : gw2.getPositionsR = gw1.getPositionsR := by simpa using hfr2.2.2
      cases rtb with
      | error e =>
        dsimp only
        exact ⟨rfl, by simp [GW.notify, evCount_cons, isOpenTx, hl1, hl2]⟩
      | ok bals =>
        dsimp only
        rcases getPositions_head_ok gw2 l rest (by rw [hq2, hq1, hq]) with
          ⟨e, gw3, hgp⟩ | ⟨gw3, cp, hgp⟩ <;>
          have hfr3 := getPositions_frame gw2 <;> rw [hgp] at hfr3 <;>
          have hl3 : gw3.log = gw2.log := by simpa using hfr3.1
        · rw [hgp]
          dsimp only
          exact ⟨rfl, by simp [GW.notify, evCount_cons, isOpenTx, hl1, hl2, hl3]⟩
        · rw [hgp]
          dsimp only
          rw [if_pos (by simpa using List.length_pos.mpr hl)]
          exact ⟨rfl, by simp [hl1, hl2, hl3]⟩
  · intro pd bals createq balA balB hA hB hmin
    unfold PositionManager.createOptimalPosition RaydiumService.isPoolInitialized
      GW.popTokenBalances RaydiumService.getPositions RaydiumService.getCurrentPrice
      GW.popPositions RaydiumService.fetchPoolInfo GW.popFetchPool
    simp only [Option.isSome, if_true, List.map_nil, List.length_nil, gt_iff_lt,
      Nat.lt_irrefl, if_false, hA, hB]
    rw [if_pos hmin]
    exact ⟨rfl, rfl⟩

def cxC7gw : GW :=
  ⟨some ⟨7, 8, 10⟩, [], [Except.ok [⟨101, 1, 2⟩]], [Except.ok []], [], [], [], []⟩

theorem claim_C7_witness :
    cxC7gw.getPositionsR = Except.ok [⟨101, 1, 2⟩] :: [] ∧
    ((PositionManager.createOptimalPosition ⟨5, 1, 1⟩ cxC7gw).1 = Except.ok none ∧
     evCount isOpenTx (PositionManager.createOptimalPosition ⟨5, 1, 1⟩ cxC7gw).2.log =
       evCount isOpenTx cxC7gw.log) ∧
    lookupBal [(7, ⟨7, 999, 9, 1⟩), (8, ⟨8, 5000, 6, 5⟩)] (PoolData.mintA ⟨7, 8, 10⟩) =
      some ⟨7, 999, 9, 1⟩ ∧
    ((PositionManager.createOptimalPosition ⟨5, 1, 1⟩
       ⟨some ⟨7, 8, 10⟩, [Except.ok ⟨7, 8, 10⟩], [Except.ok []],
        [Except.ok [(7, ⟨7, 999, 9, 1⟩), (8, ⟨8, 5000, 6, 5⟩)]],
        [Except.ok 1], [], [], []⟩).1 = Except.ok none ∧
     evCount isOpenTx (PositionManager.createOptimalPosition ⟨5, 1, 1⟩
       ⟨some ⟨7, 8, 10⟩, [Except.ok ⟨7, 8, 10⟩], [Except.ok []],
        [Except.ok [(7, ⟨7, 999, 9, 1⟩), (8, ⟨8, 5000, 6, 5⟩)]],
        [Except.ok 1], [], [], []⟩).2.log = 0) :=
  ⟨rfl,
   (claim_C7 ⟨5, 1, 1⟩).1 cxC7gw [⟨101, 1, 2⟩] [] rfl (by decide),
   rfl,
   (claim_C7 ⟨5, 1, 1⟩).2 ⟨7, 8, 10⟩ [(7, ⟨7, 999, 9, 1⟩), (8, ⟨8, 5000, 6, 5⟩)] []
     ⟨7, 999, 9, 1⟩ ⟨8, 5000, 6, 5⟩ rfl rfl (by decide)⟩

/-- C8: when `createOptimalPosition` does submit (no existing position, both
balances present and at or above the floor, submission accepted), exactly one
open-position transaction is submitted, offering exactly 95 percent of each raw
balance with truncating integer division, banded at
`price × (1 − priceRangePercent/100)` and `price × (1 + priceRangePercent/100)`;
the resulting gateway state is computed in full, so the log shows the single
submission. -/
theorem claim_C8 (cfg : Config) (pd : PoolData) (bals : List (Nat × TokenBalance))
    (balA balB : TokenBalance) (sig : String)
    (hA : lookupBal bals pd.mintA = some balA)
    (hB : lookupBal bals pd.mintB = some balB)
    (ha : 1000 ≤ balA.amount) (hb : 1000 ≤ balB.amount) :
    PositionManager.createOptimalPosition cfg
      ⟨some pd, [Except.ok pd], [Except.ok []], [Except.ok bals],
       [Except.ok 1], [Except.ok sig], [], []⟩ =
    (Except.ok (some sig),
     ⟨some pd, [], [], [], [Except.ok 1], [], [],
      [Event.notifyPositionCreated,
       Event.openPositionTx (pd.price * (1 - cfg.priceRangePercent / 100))
         (pd.price * (1 + cfg.priceRangePercent / 100))
         (balA.amount * 95 / 100) (balB.amount * 95 / 100) (Except.ok sig)]⟩) := by
  unfold PositionManager.createOptimalPosition RaydiumService.isPoolInitialized
    GW.popTokenBalances RaydiumService.getPositions RaydiumService.getCurrentPrice
    GW.popPositions RaydiumService.fetchPoolInfo GW.popFetchPool
    RaydiumService.createPosition RaydiumService.calculatePriceRange
    GW.popCreate GW.notify
  simp only [Option.isSome, if_true, List.map_nil, List.length_nil, gt_iff_lt,
    Nat.lt_irrefl, if_false, hA, hB]
  rw [if_neg (by omega)]
  simp [RaydiumService.getCurrentPrice]

theorem claim_C8_witness :
    lookupBal [(7, ⟨7, 2000, 9, 2⟩), (8, ⟨8, 5000, 6, 5⟩)] (PoolData.mintA ⟨7, 8, 10⟩) =
      some ⟨7, 2000, 9, 2⟩ ∧
    lookupBal [(7, ⟨7, 2000, 9, 2⟩), (8, ⟨8, 5000, 6, 5⟩)] (PoolData.mintB ⟨7, 8, 10⟩) =
      some ⟨8, 5000, 6, 5⟩ ∧
    1000 ≤ (2000 : Nat) ∧
    PositionManager.createOptimalPosition ⟨5, 1, 1⟩
      ⟨some ⟨7, 8, 10⟩, [Except.ok ⟨7, 8, 10⟩], [Except.ok []],
       [Except.ok [(7, ⟨7, 2000, 9, 2⟩), (8, ⟨8, 5000, 6, 5⟩)]],
       [Except.ok 1], [Except.ok ("sX")], [], []⟩ =
    (Except.ok (some ("sX")),
     ⟨some ⟨7, 8, 10⟩, [], [], [], [Except.ok 1], [], [],
      [Event.notifyPositionCreated,
       Event.openPositionTx ((10 : Rat) * (1 - (5 : Rat) / 100))
         ((10 : Rat) * (1 + (5 : Rat) / 100))
         (2000 * 95 / 100) (5000 * 95 / 100) (Except.ok ("sX"))]⟩) :=
  ⟨rfl, rfl, by omega,
   claim_C8 ⟨5, 1, 1⟩ ⟨7, 8, 10⟩ [(7, ⟨7, 2000, 9, 2⟩), (8, ⟨8, 5000, 6, 5⟩)]
     ⟨7, 2000, 9, 2⟩ ⟨8, 5000, 6, 5⟩ ("sX") rfl rfl (by decide) (by decide)⟩
